import Mathlib

/-!
Shallow embedding of the text-corpus ingestion and batching subsystem
(data/text_data.py): the VocabEntry bidirectional vocabulary, the corpus
reader, the padding primitive, and the three batching strategies
(data_iter, create_data_batch, data_sample).

Modelling conventions:
- Python dicts are association lists with first-match lookup; the dict
  comprehension that inverts word2id keeps the last binding for a
  duplicated value, so the inverted list is reversed before first-match
  lookup.
- A line of the input file is modelled as its list of whitespace tokens
  (line.split()); a blank line is the empty list.
- Exceptions (TypeError, KeyError, AssertionError) are modelled with
  Except String; mutations the Python code performs before an exception
  propagates are kept in the returned state.
- numpy shuffling is modelled by passing the shuffled index array
  (a permutation of 0..n-1) as an explicit argument.
-/

deriving instance DecidableEq for Except

/-- VocabEntry (text_data.py lines 7-44): word2id is the Python dict in
insertion order, unk_id the cached unknown id, id2word_ the inverted dict. -/
structure VocabEntry where
  word2id : List (String × Nat)
  unk_id : Nat
  id2word_ : List (Nat × String)
deriving Repr, DecidableEq

/-- The dict comprehension on line 23: invert the pairs; reversal makes
first-match lookup agree with last-wins Python dict construction. -/
def invertMap (m : List (String × Nat)) : List (Nat × String) :=
  (m.map (fun p => (p.2, p.1))).reverse

/-- VocabEntry(), no word2id argument (lines 15-23): the four reserved
symbols at ids 0-3, unk_id 3, and the inverted map. -/
def VocabEntry.init : VocabEntry :=
  { word2id := [("<pad>", 0), ("<s>", 1), ("</s>", 2), ("<unk>", 3)],
    unk_id := 3,
    id2word_ := invertMap [("<pad>", 0), ("<s>", 1), ("</s>", 2), ("<unk>", 3)] }

/-- VocabEntry(word2id) (lines 12-23): a falsy (empty) dict falls through to
the default construction; otherwise unk_id = word2id["<unk>"] raises
KeyError when absent. -/
def VocabEntry.ofWord2id (m : List (String × Nat)) : Except String VocabEntry :=
  if m.isEmpty then Except.ok VocabEntry.init
  else
    match m.lookup "<unk>" with
    | some u => Except.ok { word2id := m, unk_id := u, id2word_ := invertMap m }
    | none => Except.error "KeyError: <unk>"

/-- __getitem__ (lines 25-26): dict get with the unknown id as default. -/
def VocabEntry.getitem (v : VocabEntry) (w : String) : Nat :=
  (v.word2id.lookup w).getD v.unk_id

/-- __contains__ (lines 28-29). -/
def VocabEntry.hasWord (v : VocabEntry) (w : String) : Bool :=
  (v.word2id.lookup w).isSome

/-- __len__ (lines 31-32). -/
def VocabEntry.size (v : VocabEntry) : Nat :=
  v.word2id.length

/-- add (lines 34-41). For an unknown word the source executes
wid = self.word2id[word] = len(self) (evaluating len(self) before the
insertion) and then self.id2word[wid] = word; id2word is a method
(line 43), not the dict id2word_, so item assignment on the bound method
raises TypeError after word2id was already mutated. The returned pair is
the vocabulary state after the call together with the outcome. -/
def VocabEntry.add (v : VocabEntry) (w : String) : VocabEntry × Except String Nat :=
  if v.hasWord w then (v, Except.ok (v.getitem w))
  else
    ({ v with word2id := v.word2id ++ [(w, v.size)] },
     Except.error "TypeError: method object does not support item assignment")

/-- id2word (lines 43-44): dict subscript on id2word_, KeyError when the id
is absent. -/
def VocabEntry.id2word (v : VocabEntry) (wid : Nat) : Except String String :=
  match v.id2word_.lookup wid with
  | some w => Except.ok w
  | none => Except.error "KeyError: id not in id2word_"

/-- Vocabulary states reachable from VocabEntry() through calls of add that
returned normally (raised no exception). -/
inductive VocabReachable : VocabEntry → Prop
  | base : VocabReachable VocabEntry.init
  | step (v : VocabEntry) (w : String) (i : Nat) :
      VocabReachable v → (v.add w).2 = Except.ok i → VocabReachable (v.add w).1

/-- The implicit growing vocabulary of _read_corpus mode 1 (lines 70-75):
a defaultdict whose factory assigns len(vocab) to a novel key. -/
structure DVocab where
  entries : List (String × Nat)
deriving Repr, DecidableEq

/-- The defaultdict seeded with the four reserved symbols (lines 71-75). -/
def DVocab.init : DVocab :=
  { entries := [("<pad>", 0), ("<s>", 1), ("</s>", 2), ("<unk>", 3)] }

/-- defaultdict subscript: an existing key returns its id, a novel key is
inserted with id len(vocab) and that id returned. -/
def DVocab.get (v : DVocab) (w : String) : DVocab × Nat :=
  match v.entries.lookup w with
  | some i => (v, i)
  | none => ({ entries := v.entries ++ [(w, v.entries.length)] }, v.entries.length)

/-- [vocab[word] for word in line.split()] in mode 1 (line 90), threading the
growing defaultdict left to right. -/
def DVocab.getLine (v : DVocab) : List String → DVocab × List Nat
  | [] => (v, [])
  | w :: ws =>
    let p := v.get w
    let q := p.1.getLine ws
    (q.1, p.2 :: q.2)

/-- Python truthiness of the max_length argument (line 84): None and 0 are
falsy, any positive int is truthy. -/
def maxLenActive : Option Nat → Bool
  | none => false
  | some m => decide (0 < m)

/-- The drop decision of _read_corpus (lines 80-87): a line is dropped when
it has no tokens, or when max_length is truthy and the token count
exceeds it. -/
def dropLine (m : Option Nat) (toks : List String) : Bool :=
  decide (toks.length < 1) || (maxLenActive m && decide (toks.length > m.getD 0))

/-- The mode-1 scan loop of _read_corpus (lines 77-91) with a growing
defaultdict: returns (data, final vocabulary, dropped count). -/
def readLines1 (m : Option Nat) : List (List String) → DVocab → List (List Nat) × DVocab × Nat
  | [], v => ([], v, 0)
  | line :: rest, v =>
    if dropLine m line then
      let r := readLines1 m rest v
      (r.1, r.2.1, r.2.2 + 1)
    else
      let p := v.getLine line
      let r := readLines1 m rest p.1
      (p.2 :: r.1, r.2.1, r.2.2)

/-- The scan loop of _read_corpus when a VocabEntry was supplied: tokens are
resolved with __getitem__ (unknown falls back to unk_id), the vocabulary
does not change. Returns (data, dropped count). -/
def readLines2 (m : Option Nat) (v : VocabEntry) : List (List String) → List (List Nat) × Nat
  | [] => ([], 0)
  | line :: rest =>
    if dropLine m line then
      let r := readLines2 m v rest
      (r.1, r.2 + 1)
    else
      let r := readLines2 m v rest
      (line.map v.getitem :: r.1, r.2)

/-- Mode-1 finalization (lines 92-95): wrap the accumulated defaultdict as a
VocabEntry. -/
def readMode1 (m : Option Nat) (lines : List (List String)) :
    Except String (List (List Nat) × VocabEntry × Nat) :=
  let r := readLines1 m lines DVocab.init
  match VocabEntry.ofWord2id r.2.1.entries with
  | Except.ok ve => Except.ok (r.1, ve, r.2.2)
  | Except.error e => Except.error e

/-- _read_corpus (lines 67-95). The vocab parameter is tested for Python
truthiness (a VocabEntry defines __len__, so an empty one is falsy and
also triggers mode 1). -/
def readCorpus (m : Option Nat) (vocabOpt : Option VocabEntry) (lines : List (List String)) :
    Except String (List (List Nat) × VocabEntry × Nat) :=
  match vocabOpt with
  | some v =>
    if v.size = 0 then readMode1 m lines
    else
      let r := readLines2 m v lines
      Except.ok (r.1, v, r.2)
  | none => readMode1 m lines

/-- MonoTextData state after construction (line 62): self.data, self.vocab,
self.dropped. -/
structure MonoTextData where
  data : List (List Nat)
  vocab : VocabEntry
  dropped : Nat
deriving Repr, DecidableEq

/-- Transposition of a rectangular row-major matrix: tensor.permute(1, 0)
(line 134). torch tensors are rectangular, so the column count of every
row equals that of the first row. -/
def permute10 (rows : List (List Nat)) : List (List Nat) :=
  (List.range (rows.headD []).length).map (fun j => rows.map (fun r => r.getD j 0))

/-- _to_tensor (lines 97-136). self is only consulted for self.vocab, which
is passed explicitly. Python max raises on an empty batch; the callers
only pass non-empty batches, where foldl Nat.max 0 agrees with max. The
guarded element access sent[i] if len(sent) > i else pad is List.getD
with the pad id as default. -/
def MonoTextData.to_tensor (v : VocabEntry) (batch_first : Bool) (batch : List (List Nat)) :
    List (List Nat) × List Nat :=
  let bd := batch.map (fun sent => sent ++ [v.getitem "</s>"])
  let sents_len := bd.map List.length
  let max_len := sents_len.foldl Nat.max 0
  let sents_new := List.replicate sents_len.length (v.getitem "<s>") ::
    (List.range max_len).map (fun i => bd.map (fun sent => sent.getD i (v.getitem "<pad>")))
  let sents_ts := if batch_first then permute10 sents_new else sents_new
  (sents_ts, sents_len.map (fun n => n + 1))

/-- Stable insertion into a list sorted by the Boolean comparator. -/
def insertLe {α : Type} (le : α → α → Bool) (a : α) : List α → List α
  | [] => [a]
  | b :: rest => if le a b then a :: b :: rest else b :: insertLe le a rest

/-- Stable insertion sort; models Python list.sort and numpy argsort (the
claims are insensitive to tie order). -/
def insSort {α : Type} (le : α → α → Bool) : List α → List α
  | [] => []
  | a :: rest => insertLe le a (insSort le rest)

/-- batch_data.sort(key=lambda e: -len(e)) (lines 157, 219): stable sort by
descending length. -/
def sortDescLen (batch : List (List Nat)) : List (List Nat) :=
  insSort (fun s t => decide (t.length ≤ s.length)) batch

/-- The batch index slices of data_iter (lines 146-153). batch_num is
int(np.ceil(len(index_arr)) / float(batch_size)): np.ceil applies to the
integer length (a no-op), so the count is the floor n / b, not the
ceiling. index_arr[i*b : (i+1)*b] is drop then take on the permutation. -/
def dataIterIds (n b : Nat) (perm : List Nat) : List (List Nat) :=
  (List.range (n / b)).map (fun i => (perm.drop (i * b)).take b)

/-- data_iter (lines 139-161). perm is the (possibly shuffled) index array;
each slice is gathered from self.data, sorted by descending length on the
per-call copy, and padded. The MonoTextData component is the state of
self after the call. -/
def MonoTextData.data_iter (c : MonoTextData) (b : Nat) (perm : List Nat) (batch_first : Bool) :
    MonoTextData × List (List (List Nat) × List Nat) :=
  (c, (dataIterIds c.data.length b perm).map (fun ids =>
        MonoTextData.to_tensor c.vocab batch_first
          (sortDescLen (ids.map (fun j => c.data.getD j [])))))

/-- data_sample (lines 202-223): the first nsample entries of the
permutation, gathered, sorted descending, padded. -/
def MonoTextData.data_sample (c : MonoTextData) (nsample : Nat) (perm : List Nat)
    (batch_first : Bool) : MonoTextData × (List (List Nat) × List Nat) :=
  (c, MonoTextData.to_tensor c.vocab batch_first
        (sortDescLen ((perm.take nsample).map (fun j => c.data.getD j []))))

/-- np.argsort of the sequence lengths (line 172), modelled as a stable sort
of the index range by ascending length. -/
def sortIdx (data : List (List Nat)) : List Nat :=
  insSort (fun i j => decide ((data.getD i []).length ≤ (data.getD j []).length))
    (List.range data.length)

/-- The loop recording where the sorted length sequence changes
(lines 176-180): indices i of range(1, len) with sort_len[i] differing
from sort_len[i-1], then len appended. -/
def changeLoc (sl : List Nat) : List Nat :=
  (List.range' 1 (sl.length - 1)).filter (fun i => decide (sl.getD i 0 ≠ sl.getD (i - 1) 0))
    ++ [sl.length]

/-- One round of the inner while loop (lines 186-191) on index ranges: from
curr up to idx in steps of at most b. Fuel idx - curr suffices for any
b above zero; with b = 0 the source loops forever, which is outside every
claim (all quantify over b at least 1). -/
def whileChunksF : Nat → Nat → Nat → Nat → List (Nat × Nat)
  | 0, _, _, _ => []
  | fuel + 1, b, curr, idx =>
    if curr < idx then
      (curr, min (curr + b) idx) :: whileChunksF fuel b (min (curr + b) idx) idx
    else []

/-- The inner while loop with its natural fuel. -/
def whileChunks (b curr idx : Nat) : List (Nat × Nat) :=
  whileChunksF (idx - curr) b curr idx

/-- The outer for idx in change_loc loop (line 185), threading curr: after
the inner loop curr equals idx when it started below idx, otherwise it is
unchanged, which max captures. -/
def goChunks (b : Nat) : Nat → List Nat → List (Nat × Nat)
  | _, [] => []
  | curr, idx :: rest => whileChunks b curr idx ++ goChunks b (max curr idx) rest

/-- The raw (pre-tensor) batch for an index range: sequences gathered through
sort_idx (lines 189-190). -/
def chunkBatch (data : List (List Nat)) (lo hi : Nat) : List (List Nat) :=
  (List.range' lo (hi - lo)).map (fun k => data.getD ((sortIdx data).getD k 0) [])

/-- All raw batches produced by create_data_batch, in production order. -/
def rawBatches (data : List (List Nat)) (b : Nat) : List (List (List Nat)) :=
  let sl := (sortIdx data).map (fun j => (data.getD j []).length)
  (goChunks b 0 (changeLoc sl)).map (fun c => chunkBatch data c.1 c.2)

/-- The batch loop of create_data_batch (lines 185-196): pads each raw
batch, accumulates total += batch_data.size(0) (the length of the
returned tensor's leading dimension), and checks the per-batch assertion
sents_len == [sents_len[0]] * len(sents_len). -/
def cdbLoop (v : VocabEntry) (batch_first : Bool) :
    List (List (List Nat)) → Except String (List (List (List Nat)) × Nat)
  | [] => Except.ok ([], 0)
  | bd :: rest =>
    let t := MonoTextData.to_tensor v batch_first bd
    if t.2 = List.replicate t.2.length (t.2.headD 0) then
      match cdbLoop v batch_first rest with
      | Except.ok r => Except.ok (t.1 :: r.1, r.2 + t.1.length)
      | Except.error e => Except.error e
    else Except.error "AssertionError: sents_len"

/-- create_data_batch (lines 163-199), including the final assertion
total == len(self.data) (line 198). The MonoTextData component is the
state of self after the call. -/
def MonoTextData.create_data_batch (c : MonoTextData) (b : Nat) (batch_first : Bool) :
    MonoTextData × Except String (List (List (List Nat))) :=
  (c, match cdbLoop c.vocab batch_first (rawBatches c.data b) with
      | Except.ok r =>
        if r.2 = c.data.length then Except.ok r.1 else Except.error "AssertionError: total"
      | Except.error e => Except.error e)

/-- C1: add on an unknown token does not assign it the next id and record
both directions as claimed: self.id2word names the method, not the dict
id2word_, so item assignment raises TypeError after word2id was already
extended, and no id is returned and the inverse mapping is left stale.
The already-known branch does return the existing id and leaves the
vocabulary unchanged. -/
theorem c1_add_type_error :
    (VocabEntry.init.add "a").2
        = Except.error "TypeError: method object does not support item assignment"
    ∧ (VocabEntry.init.add "a").1.word2id.lookup "a" = some 4
    ∧ (VocabEntry.init.add "a").1.id2word_.lookup 4 = none
    ∧ VocabEntry.init.add "<s>" = (VocabEntry.init, Except.ok 1) := by
  exact ⟨by decide, by decide, by decide, by decide⟩

/-- C2: data_iter yields floor(n / b) batches, not ceil(n / b): the
parenthesization int(np.ceil(len(index_arr)) / float(batch_size)) applies
np.ceil to the integer length, so the quotient is truncated. With five
sequences and batch_size two only two batches appear and the index 4 is
covered by no batch. -/
theorem c2_floor_truncation :
    (∀ (n b : Nat) (perm : List Nat), (dataIterIds n b perm).length = n / b)
    ∧ (dataIterIds 5 2 [0, 1, 2, 3, 4]).length = 2
    ∧ ((5 : Nat) + 2 - 1) / 2 = 3
    ∧ dataIterIds 5 2 [0, 1, 2, 3, 4] = [[0, 1], [2, 3]]
    ∧ (∀ ids ∈ dataIterIds 5 2 [0, 1, 2, 3, 4], (4 : Nat) ∉ ids) := by
  refine ⟨fun n b perm => ?_, by decide, by decide, by decide, by decide⟩
  simp [dataIterIds]

/-- C3: create_data_batch accumulates total += batch_data.size(0), which for
batch_first = False is the time dimension of the padded tensor, not the
number of sequences; on a corpus of one two-token sequence with
batch_size 1 the final assertion total == len(self.data) compares 4 with
1 and fails. With batch_first = True size(0) is the batch dimension and
the call succeeds. -/
theorem c3_total_assert_fails :
    ((MonoTextData.mk [[5, 5]] VocabEntry.init 0).create_data_batch 1 false).2
        = Except.error "AssertionError: total"
    ∧ (MonoTextData.mk [[5, 5]] VocabEntry.init 0).data.length = 1
    ∧ ((MonoTextData.mk [[5, 5]] VocabEntry.init 0).create_data_batch 1 true).2
        = Except.ok [[[1, 5, 5, 2]]] := by
  exact ⟨by decide, by decide, by decide⟩

/-- C9: the three batching methods return self unchanged: every sort or
append in their bodies targets a per-call copy, so data, vocab and
dropped are identical before and after any call. -/
theorem c9_frame (c : MonoTextData) (b nsample : Nat) (perm : List Nat) (bf : Bool) :
    (c.data_iter b perm bf).1 = c
    ∧ (c.data_sample nsample perm bf).1 = c
    ∧ (c.create_data_batch b bf).1 = c :=
  ⟨rfl, rfl, rfl⟩

theorem readLines1_count (m : Option Nat) (lines : List (List String)) (v : DVocab) :
    (readLines1 m lines v).2.2 = lines.countP (fun l => dropLine m l) := by
  induction lines generalizing v with
  | nil => simp [readLines1]
  | cons l rest ih =>
    by_cases h : dropLine m l
    · simp [readLines1, h, ih, List.countP_cons]
    · simp [readLines1, h, ih, List.countP_cons]

theorem readLines1_len (m : Option Nat) (lines : List (List String)) (v : DVocab) :
    (readLines1 m lines v).1.length = lines.countP (fun l => !dropLine m l) := by
  induction lines generalizing v with
  | nil => simp [readLines1]
  | cons l rest ih =>
    by_cases h : dropLine m l
    · simp [readLines1, h, ih, List.countP_cons]
    · simp [readLines1, h, ih, List.countP_cons]

theorem readLines1_filter (m : Option Nat) (lines : List (List String)) (v : DVocab) :
    readLines1 m (lines.filter (fun l => !dropLine m l)) v
      = ((readLines1 m lines v).1, (readLines1 m lines v).2.1, 0) := by
  induction lines generalizing v with
  | nil => simp [readLines1]
  | cons l rest ih =>
    by_cases h : dropLine m l
    · simp [readLines1, h, ih]
    · simp [readLines1, h, ih]

theorem dropLine_some_zero (toks : List String) :
    dropLine (some 0) toks = dropLine none toks := by
  simp [dropLine, maxLenActive]

theorem dropLine_none_isEmpty (toks : List String) :
    dropLine none toks = toks.isEmpty := by
  cases toks <;> simp [dropLine, maxLenActive]

theorem readLines1_congr (m1 m2 : Option Nat)
    (h : ∀ l, dropLine m1 l = dropLine m2 l) (lines : List (List String)) (v : DVocab) :
    readLines1 m1 lines v = readLines1 m2 lines v := by
  induction lines generalizing v with
  | nil => simp [readLines1]
  | cons l rest ih =>
    by_cases hd : dropLine m1 l
    · simp [readLines1, hd, h l ▸ hd, ih]
    · have hd2 : dropLine m2 l = false := by rw [← h l]; simpa using hd
      simp [readLines1, hd, hd2, ih]

theorem readLines2_congr (m1 m2 : Option Nat) (ve : VocabEntry)
    (h : ∀ l, dropLine m1 l = dropLine m2 l) (lines : List (List String)) :
    readLines2 m1 ve lines = readLines2 m2 ve lines := by
  induction lines with
  | nil => simp [readLines2]
  | cons l rest ih =>
    by_cases hd : dropLine m1 l
    · simp [readLines2, hd, h l ▸ hd, ih]
    · have hd2 : dropLine m2 l = false := by rw [← h l]; simpa using hd
      simp [readLines2, hd, hd2, ih]

/-- C7: during corpus construction a line is dropped (counted, not appended)
exactly when it has zero tokens or max_length is truthy and exceeded;
otherwise its tokens are resolved and the id sequence appended: dropped
equals the count of lines satisfying the drop condition, the data holds
one id sequence per accepted line (filtering the dropped lines away first
changes nothing), a single dropped line contributes only to the counter
and a single accepted line contributes exactly its resolved ids; the
5-line file with one blank line and max_length = None yields 4 sequences
and dropped = 1. -/
theorem c7_drop_filter :
    (∀ (m : Option Nat) (lines : List (List String)) (v : DVocab),
        (readLines1 m lines v).2.2 = lines.countP (fun l => dropLine m l)
        ∧ (readLines1 m lines v).1.length = lines.countP (fun l => !dropLine m l)
        ∧ readLines1 m (lines.filter (fun l => !dropLine m l)) v
            = ((readLines1 m lines v).1, (readLines1 m lines v).2.1, 0))
    ∧ (∀ (m : Option Nat) (line : List String) (v : DVocab),
        (dropLine m line = true → readLines1 m [line] v = ([], v, 1))
        ∧ (dropLine m line = false →
            readLines1 m [line] v = ([(v.getLine line).2], (v.getLine line).1, 0)))
    ∧ (∀ (m : Option Nat) (toks : List String),
        dropLine m toks = true ↔
          toks = [] ∨ (maxLenActive m = true ∧ m.getD 0 < toks.length))
    ∧ Except.map (fun r => (r.1.length, r.2.2))
        (readCorpus none none [["a"], ["b", "c"], [], ["d"], ["e"]]) = Except.ok (4, 1) := by
  refine ⟨fun m lines v => ⟨readLines1_count m lines v, readLines1_len m lines v,
    readLines1_filter m lines v⟩, fun m line v => ⟨fun h => ?_, fun h => ?_⟩,
    fun m toks => ?_, by decide⟩
  · simp [readLines1, h]
  · simp [readLines1, h]
  · constructor
    · intro h
      simp only [dropLine, Bool.or_eq_true, Bool.and_eq_true, decide_eq_true_eq] at h
      rcases h with h | ⟨h1, h2⟩
      · exact Or.inl (List.length_eq_zero.mp (Nat.lt_one_iff.mp h))
      · exact Or.inr ⟨h1, h2⟩
    · intro h
      rcases h with h | ⟨h1, h2⟩
      · subst h; simp [dropLine]
      · simp [dropLine, h1, h2]

/-- C10: a falsy max_length (0 or None) disables the length filter entirely:
readCorpus with max_length 0 behaves exactly as with None in both
vocabulary modes, only zero-token lines are dropped, and every non-empty
line regardless of token count is accepted into the data. -/
theorem c10_zero_disables :
    (∀ (vocabOpt : Option VocabEntry) (lines : List (List String)),
        readCorpus (some 0) vocabOpt lines = readCorpus none vocabOpt lines)
    ∧ (∀ (lines : List (List String)) (v : DVocab),
        (readLines1 (some 0) lines v).2.2 = lines.countP (fun l => l.isEmpty)
        ∧ (readLines1 (some 0) lines v).1.length = lines.countP (fun l => !l.isEmpty)) := by
  have hdl : ∀ l, dropLine (some 0) l = dropLine none l := dropLine_some_zero
  constructor
  · intro vocabOpt lines
    have h1 : readLines1 (some 0) lines DVocab.init = readLines1 none lines DVocab.init :=
      readLines1_congr _ _ hdl lines DVocab.init
    cases vocabOpt with
    | none => simp [readCorpus, readMode1, h1]
    | some ve =>
      by_cases hs : ve.size = 0
      · simp [readCorpus, hs, readMode1, h1]
      · simp [readCorpus, hs, readLines2_congr _ _ ve hdl lines]
  · intro lines v
    constructor
    · rw [readLines1_count]
      exact List.countP_congr (fun l _ => by rw [dropLine_some_zero, dropLine_none_isEmpty])
    · rw [readLines1_len]
      exact List.countP_congr (fun l _ => by
        rw [dropLine_some_zero, dropLine_none_isEmpty])

theorem vocabReachable_eq_init (v : VocabEntry) (h : VocabReachable v) :
    v = VocabEntry.init := by
  induction h with
  | base => rfl
  | step v w i hr hok ih =>
    by_cases hw : v.hasWord w
    · simpa [VocabEntry.add, hw] using ih
    · simp [VocabEntry.add, hw] at hok

/-- C5: on every vocabulary reachable through successfully returning add
calls (due to the add bug these are exactly the states whose known tokens
are the reserved ones), resolve_id inverts lookup on every known token,
lookup of an unknown token returns the fixed unknown id, and the inverse
mapping is total over 0..size-1 with no gaps. -/
theorem c5_roundtrip (v : VocabEntry) (hv : VocabReachable v) (t : String) :
    (v.hasWord t = true → v.id2word (v.getitem t) = Except.ok t)
    ∧ (v.hasWord t = false → v.getitem t = v.unk_id)
    ∧ (List.range v.size).all (fun i => (v.id2word i).isOk) = true := by
  obtain rfl := vocabReachable_eq_init v hv
  refine ⟨fun h => ?_, fun h => ?_, by decide⟩
  · by_cases h1 : t = "<pad>"
    · subst h1; decide
    · by_cases h2 : t = "<s>"
      · subst h2; decide
      · by_cases h3 : t = "</s>"
        · subst h3; decide
        · by_cases h4 : t = "<unk>"
          · subst h4; decide
          · simp [VocabEntry.hasWord, VocabEntry.init, List.lookup,
              show (t == "<pad>") = false by simp [h1],
              show (t == "<s>") = false by simp [h2],
              show (t == "</s>") = false by simp [h3],
              show (t == "<unk>") = false by simp [h4]] at h
  · cases hl : VocabEntry.init.word2id.lookup t with
    | none => simp [VocabEntry.getitem, hl]
    | some j => simp [VocabEntry.hasWord, hl] at h

/-- C5 witness: the round trip evaluated on the reserved end symbol of the
default vocabulary. -/
theorem c5_roundtrip_witness :
    VocabEntry.init.id2word (VocabEntry.init.getitem "</s>") = Except.ok "</s>" :=
  (c5_roundtrip VocabEntry.init VocabReachable.base "</s>").1 (by decide)

/-- C8: lookup is total (an unknown token falls back to the unknown id, a
known one to its recorded id) and contains never fails, while id2word is
a strict inverse with no default: it returns the KeyError outcome exactly
when the id is absent from the inverse mapping, and on the default
vocabulary it succeeds exactly on the assigned ids 0..3. -/
theorem c8_error_modes (v : VocabEntry) (w : String) (i : Nat) :
    (v.hasWord w = false → v.getitem w = v.unk_id)
    ∧ (v.hasWord w = true → v.word2id.lookup w = some (v.getitem w))
    ∧ ((v.id2word i).isOk = false ↔ v.id2word_.lookup i = none)
    ∧ (VocabEntry.init.id2word i).isOk = decide (i < 4) := by
  refine ⟨fun h => ?_, fun h => ?_, ?_, ?_⟩
  · cases hl : v.word2id.lookup w with
    | none => simp [VocabEntry.getitem, hl]
    | some j => simp [VocabEntry.hasWord, hl] at h
  · cases hl : v.word2id.lookup w with
    | none => simp [VocabEntry.hasWord, hl] at h
    | some j => simp [VocabEntry.getitem, hl]
  · cases hl : v.id2word_.lookup i with
    | none => simp [VocabEntry.id2word, hl, Except.isOk, Except.toBool]
    | some s => simp [VocabEntry.id2word, hl, Except.isOk, Except.toBool]
  · match i with
    | 0 => decide
    | 1 => decide
    | 2 => decide
    | 3 => decide
    | k + 4 =>
      have h4 : VocabEntry.init.id2word_.lookup (k + 4) = none := by
        simp [VocabEntry.init, invertMap, List.lookup]
      simp [VocabEntry.id2word, h4, Except.isOk, Except.toBool,
        show ¬ (k + 4 < 4) by omega]

/-- C8 witness: lookup of an unknown token on the default vocabulary returns
the unknown id, and resolving the unassigned id 4 fails. -/
theorem c8_error_modes_witness :
    VocabEntry.init.getitem "zzz" = VocabEntry.init.unk_id
    ∧ (VocabEntry.init.id2word 4).isOk = false := by
  refine ⟨(c8_error_modes VocabEntry.init "zzz" 4).1 (by decide), ?_⟩
  have h := (c8_error_modes VocabEntry.init "zzz" 4).2.2.2
  simpa using h

/-- C7 witness: a blank line is dropped and only counted. -/
theorem c7_drop_filter_witness :
    readLines1 none [([] : List String)] DVocab.init = ([], DVocab.init, 1) :=
  (c7_drop_filter.2.1 none [] DVocab.init).1 (by decide)

theorem getD_map_lt {α β : Type} (f : α → β) (l : List α) (k : Nat) (d : α) (e : β)
    (h : k < l.length) : (l.map f).getD k e = f (l.getD k d) := by
  rw [List.getD_eq_getElem _ _ (by simpa using h), List.getD_eq_getElem _ _ h]
  simp

theorem le_foldl_max (l : List Nat) (a x : Nat) (hx : x ∈ l ∨ x ≤ a) :
    x ≤ l.foldl Nat.max a := by
  induction l generalizing a with
  | nil =>
    rcases hx with h | h
    · exact absurd h (List.not_mem_nil x)
    · simpa using h
  | cons b rest ih =>
    rcases hx with h | h
    · rcases List.mem_cons.mp h with rfl | h2
      · exact ih (Nat.max a x) (Or.inr (Nat.le_max_right a x))
      · exact ih (Nat.max a b) (Or.inl h2)
    · exact ih (Nat.max a b) (Or.inr (le_trans h (Nat.le_max_left a b)))

theorem to_tensor_false_eq (v : VocabEntry) (batch : List (List Nat)) :
    MonoTextData.to_tensor v false batch
      = (List.replicate batch.length (v.getitem "<s>") ::
          (List.range ((batch.map (fun s => s.length + 1)).foldl Nat.max 0)).map
            (fun i => (batch.map (fun sent => sent ++ [v.getitem "</s>"])).map
              (fun sent => sent.getD i (v.getitem "<pad>"))),
         batch.map (fun s => s.length + 2)) := by
  simp [MonoTextData.to_tensor, List.map_map, Function.comp_def]

theorem c4_padding_layout (v : VocabEntry) (batch : List (List Nat)) (hb : batch ≠ []) :
    (MonoTextData.to_tensor v false batch).1.length
        = (batch.map (fun s => s.length + 1)).foldl Nat.max 0 + 1
    ∧ (∀ row ∈ (MonoTextData.to_tensor v false batch).1, row.length = batch.length)
    ∧ (MonoTextData.to_tensor v false batch).1.headD []
        = List.replicate batch.length (v.getitem "<s>")
    ∧ (∀ t, 1 ≤ t → t ≤ (batch.map (fun s => s.length + 1)).foldl Nat.max 0 →
        ∀ i, i < batch.length →
          ((MonoTextData.to_tensor v false batch).1.getD t []).getD i 0
            = ((batch.getD i []) ++ [v.getitem "</s>"]).getD (t - 1) (v.getitem "<pad>"))
    ∧ (∀ i, i < batch.length →
        ((MonoTextData.to_tensor v false batch).1.getD
            ((MonoTextData.to_tensor v false batch).2.getD i 0 - 1) []).getD i 0
          = v.getitem "</s>")
    ∧ (MonoTextData.to_tensor v false batch).2 = batch.map (fun s => s.length + 2) := by
  rw [to_tensor_false_eq]
  refine ⟨by simp, ?_, by simp, ?_, ?_, by simp⟩
  · intro row hrow
    rcases List.mem_cons.mp hrow with rfl | hrow2
    · simp
    · obtain ⟨j, _, rfl⟩ := List.mem_map.mp hrow2
      simp
  · intro t ht1 htL i hi
    obtain ⟨s, rfl⟩ : ∃ s, t = s + 1 := ⟨t - 1, by omega⟩
    have hsL : s < (batch.map (fun s => s.length + 1)).foldl Nat.max 0 := by omega
    rw [List.getD_cons_succ]
    rw [getD_map_lt _ (List.range ((batch.map (fun s => s.length + 1)).foldl Nat.max 0))
        s 0 [] (by simpa using hsL)]
    have hr : (List.range ((batch.map (fun s => s.length + 1)).foldl Nat.max 0)).getD s 0
        = s := by
      rw [List.getD_eq_getElem _ _ (by simpa using hsL)]; simp
    rw [hr]
    rw [getD_map_lt (fun sent => sent.getD s (v.getitem "<pad>")) _ i [] 0 (by simpa using hi)]
    rw [getD_map_lt (fun sent => sent ++ [v.getitem "</s>"]) batch i [] [] hi]
    simp
  · intro i hi
    rw [getD_map_lt (fun s => s.length + 2) batch i [] 0 hi]
    have harith : (batch.getD i []).length + 2 - 1 = (batch.getD i []).length + 1 := by omega
    rw [harith]
    have hmem : (batch.getD i []).length + 1 ∈ batch.map (fun s => s.length + 1) :=
      List.mem_map.mpr ⟨batch.getD i [],
        by rw [List.getD_eq_getElem _ _ hi]; exact List.getElem_mem hi, rfl⟩
    have hqL : (batch.getD i []).length + 1 ≤ (batch.map (fun s => s.length + 1)).foldl Nat.max 0 :=
      le_foldl_max _ 0 _ (Or.inl hmem)
    rw [List.getD_cons_succ]
    rw [getD_map_lt _ (List.range ((batch.map (fun s => s.length + 1)).foldl Nat.max 0))
        ((batch.getD i []).length) 0 [] (by simp only [List.length_range]; omega)]
    have hr : (List.range ((batch.map (fun s => s.length + 1)).foldl Nat.max 0)).getD
        ((batch.getD i []).length) 0 = (batch.getD i []).length := by
      rw [List.getD_eq_getElem _ _ (by simp only [List.length_range]; omega)]; simp
    rw [hr]
    rw [getD_map_lt (fun sent => sent.getD ((batch.getD i []).length) (v.getitem "<pad>"))
        _ i [] 0 (by simpa using hi)]
    rw [getD_map_lt (fun sent => sent ++ [v.getitem "</s>"]) batch i [] [] hi]
    simp [List.getD_eq_getElem?_getD, List.getElem?_append_right]

/-- C4 witness: the padding layout evaluated on the one-sequence batch
[[5]] with the default vocabulary. -/
theorem c4_padding_layout_witness :
    (MonoTextData.to_tensor VocabEntry.init false [[5]]).2 = [3]
    ∧ (MonoTextData.to_tensor VocabEntry.init false [[5]]).1.length = 3 :=
  ⟨(c4_padding_layout VocabEntry.init [[5]] (by decide)).2.2.2.2.2.trans (by decide),
   ((c4_padding_layout VocabEntry.init [[5]] (by decide)).1).trans (by decide)⟩

theorem insertLe_length {α : Type} (le : α → α → Bool) (a : α) (l : List α) :
    (insertLe le a l).length = l.length + 1 := by
  induction l with
  | nil => rfl
  | cons b rest ih => by_cases h : le a b <;> simp [insertLe, h, ih]

theorem insSort_length {α : Type} (le : α → α → Bool) (l : List α) :
    (insSort le l).length = l.length := by
  induction l with
  | nil => rfl
  | cons a rest ih => simp [insSort, insertLe_length, ih]

theorem sortIdx_length (data : List (List Nat)) : (sortIdx data).length = data.length := by
  simp [sortIdx, insSort_length]

theorem whileChunksF_mem (fuel b curr idx lo hi : Nat) (hb : 0 < b)
    (h : (lo, hi) ∈ whileChunksF fuel b curr idx) :
    curr ≤ lo ∧ lo < hi ∧ hi ≤ idx := by
  induction fuel generalizing curr with
  | zero => simp [whileChunksF] at h
  | succ f ih =>
    by_cases hc : curr < idx
    · rw [whileChunksF, if_pos hc] at h
      rcases List.mem_cons.mp h with heq | htail
      · simp at heq
        obtain ⟨rfl, rfl⟩ := heq
        omega
      · have h3 := ih (min (curr + b) idx) htail
        omega
    · rw [whileChunksF, if_neg hc] at h
      simp at h

theorem const_of_no_change (sl : List Nat) (lo hi : Nat)
    (h : ∀ i, lo < i → i < hi → sl.getD i 0 = sl.getD (i - 1) 0) :
    ∀ k, lo ≤ k → k < hi → sl.getD k 0 = sl.getD lo 0 := by
  intro k
  induction k with
  | zero =>
    intro h1 _
    have h0 : lo = 0 := Nat.le_zero.mp h1
    rw [h0]
  | succ n ihn =>
    intro h1 h2
    rcases Nat.lt_or_ge lo (n + 1) with hlt | hge
    · have hs := h (n + 1) hlt h2
      rw [show n + 1 - 1 = n from rfl] at hs
      rw [hs]
      exact ihn (by omega) (by omega)
    · have h0 : lo = n + 1 := by omega
      rw [h0]

theorem changeLoc_cov (sl : List Nat) (j : Nat) (h1 : 0 < j) (h2 : j < sl.length)
    (h3 : sl.getD j 0 ≠ sl.getD (j - 1) 0) : j ∈ changeLoc sl := by
  apply List.mem_append_left
  apply List.mem_filter.mpr
  refine ⟨?_, by simpa using h3⟩
  apply List.mem_range'_1.mpr
  omega

theorem changeLoc_bound (sl : List Nat) (idx : Nat) (h : idx ∈ changeLoc sl) :
    idx ≤ sl.length := by
  rcases List.mem_append.mp h with h1 | h2
  · have := List.mem_range'_1.mp (List.mem_filter.mp h1).1
    omega
  · simp at h2
    omega

theorem changeLoc_pairwise (sl : List Nat) :
    List.Pairwise (fun x y => x < y) (changeLoc sl) := by
  apply List.pairwise_append.mpr
  refine ⟨((List.pairwise_lt_range' 1 (sl.length - 1)).imp (fun h => h)).sublist
      (List.filter_sublist _), List.pairwise_singleton _ _, ?_⟩
  intro x hx y hy
  have hx2 := List.mem_range'_1.mp (List.mem_filter.mp hx).1
  simp at hy
  omega

theorem goChunks_no_change (sl : List Nat) (b : Nat) (hb : 0 < b) :
    ∀ (locs : List Nat) (curr : Nat),
      List.Pairwise (fun x y => x < y) locs →
      (∀ j, curr < j → j < sl.length → sl.getD j 0 ≠ sl.getD (j - 1) 0 → j ∈ locs) →
      (∀ idx ∈ locs, idx ≤ sl.length) →
      ∀ lo hi, (lo, hi) ∈ goChunks b curr locs →
        lo < hi ∧ hi ≤ sl.length ∧
        (∀ i, lo < i → i < hi → sl.getD i 0 = sl.getD (i - 1) 0) := by
  intro locs
  induction locs with
  | nil =>
    intro curr _ _ _ lo hi h
    simp [goChunks] at h
  | cons idx rest ih =>
    intro curr hpw hcov hbnd lo hi h
    rw [goChunks] at h
    rcases List.mem_append.mp h with h1 | h2
    · have hmem := whileChunksF_mem (idx - curr) b curr idx lo hi hb
        (by simpa [whileChunks] using h1)
      have hidx : idx ≤ sl.length := hbnd idx (List.mem_cons_self _ _)
      refine ⟨hmem.2.1, le_trans hmem.2.2 hidx, ?_⟩
      intro i hlo hhi
      by_contra hne
      have hj : i ∈ idx :: rest := hcov i (by omega) (by omega) hne
      rcases List.mem_cons.mp hj with rfl | hj2
      · omega
      · have hlt := (List.pairwise_cons.mp hpw).1 i hj2
        omega
    · apply ih (max curr idx) (List.pairwise_cons.mp hpw).2 ?_ ?_ lo hi h2
      · intro j hj1 hj2 hj3
        have hj := hcov j (by omega) hj2 hj3
        rcases List.mem_cons.mp hj with rfl | h4
        · omega
        · exact h4
      · intro ix hix
        exact hbnd ix (List.mem_cons_of_mem _ hix)

theorem to_tensor_snd (v : VocabEntry) (bf : Bool) (batch : List (List Nat)) :
    (MonoTextData.to_tensor v bf batch).2 = batch.map (fun s => s.length + 2) := by
  cases bf <;> simp [MonoTextData.to_tensor, List.map_map, Function.comp_def]

theorem map_eq_replicate_of_const {α : Type} (f : α → Nat) (l : List α) (c : Nat)
    (h : ∀ s ∈ l, f s = c) : l.map f = List.replicate l.length c := by
  induction l with
  | nil => rfl
  | cons a rest ih =>
    simp [List.replicate_succ, h a (List.mem_cons_self a rest),
      ih (fun s hs => h s (List.mem_cons_of_mem a hs))]

/-- C6: every batch produced by create_data_batch consists of sequences of
identical pre-padding length (the change-location partition of the sorted
length array never lets a length boundary fall inside a chunk), and hence
the reported lengths within the batch are all equal, which is exactly the
per-batch assertion sents_len == [sents_len[0]] * len(sents_len). -/
theorem c6_equal_lengths (data : List (List Nat)) (v : VocabEntry) (b : Nat) (bf : Bool)
    (hb : 0 < b) (batch : List (List Nat)) (h : batch ∈ rawBatches data b) :
    (∀ s ∈ batch, s.length = (batch.headD []).length)
    ∧ (MonoTextData.to_tensor v bf batch).2
        = List.replicate (MonoTextData.to_tensor v bf batch).2.length
            ((MonoTextData.to_tensor v bf batch).2.headD 0) := by
  simp only [rawBatches] at h
  obtain ⟨⟨lo, hi⟩, hmem, rfl⟩ := List.mem_map.mp h
  have hnc := goChunks_no_change ((sortIdx data).map (fun j => (data.getD j []).length)) b hb
      (changeLoc ((sortIdx data).map (fun j => (data.getD j []).length))) 0
      (changeLoc_pairwise _)
      (fun j hj1 hj2 hj3 => changeLoc_cov _ j hj1 hj2 hj3)
      (fun idx hidx => changeLoc_bound _ idx hidx) lo hi hmem
  obtain ⟨hlohi, hhi, hconst0⟩ := hnc
  have hconst := const_of_no_change _ lo hi hconst0
  have hhi2 : hi ≤ data.length := by
    have := hhi
    simp only [List.length_map, sortIdx_length] at this
    exact this
  have helem : ∀ k, lo ≤ k → k < hi →
      (data.getD ((sortIdx data).getD k 0) []).length
        = ((sortIdx data).map (fun j => (data.getD j []).length)).getD lo 0 := by
    intro k hk1 hk2
    have hklen : k < (sortIdx data).length := by rw [sortIdx_length]; omega
    have hstep : ((sortIdx data).map (fun j => (data.getD j []).length)).getD k 0
        = (data.getD ((sortIdx data).getD k 0) []).length :=
      getD_map_lt _ _ k 0 0 hklen
    rw [← hstep]
    exact hconst k hk1 hk2
  have hm : hi - lo = (hi - lo - 1) + 1 := by omega
  have hhead : (chunkBatch data lo hi).headD [] = data.getD ((sortIdx data).getD lo 0) [] := by
    rw [chunkBatch, hm, List.range'_succ]
    simp
  have hc1 : ∀ s ∈ chunkBatch data lo hi, s.length = ((chunkBatch data lo hi).headD []).length := by
    intro s hs
    obtain ⟨k, hk, rfl⟩ := List.mem_map.mp hs
    have hk2 := List.mem_range'_1.mp hk
    rw [hhead]
    rw [helem k hk2.1 (by omega)]
    rw [helem lo (le_refl lo) (by omega)]
  refine ⟨hc1, ?_⟩
  simp only [to_tensor_snd]
  apply List.eq_replicate_of_mem
  intro x hx
  obtain ⟨s, hs, rfl⟩ := List.mem_map.mp hx
  have h1 : s.length = ((chunkBatch data lo hi).headD []).length := hc1 s hs
  have hne : chunkBatch data lo hi ≠ [] := by
    apply List.ne_nil_of_length_pos
    simp only [chunkBatch, List.length_map, List.length_range']
    omega
  obtain ⟨hd, tl, hcons⟩ := List.exists_cons_of_ne_nil hne
  rw [hcons] at h1 ⊢
  simp only [List.headD_cons] at h1
  simp [h1]

/-- C6 witness: the assertion equality evaluated on the first batch that
create_data_batch forms from the corpus [[7], [8, 9]] with batch_size 1. -/
theorem c6_equal_lengths_witness :
    (MonoTextData.to_tensor VocabEntry.init false [[7]]).2
      = List.replicate (MonoTextData.to_tensor VocabEntry.init false [[7]]).2.length
          ((MonoTextData.to_tensor VocabEntry.init false [[7]]).2.headD 0) :=
  (c6_equal_lengths [[7], [8, 9]] VocabEntry.init 1 false (by decide) [[7]] (by decide)).2
